import Mathlib

/-!
Shallow embedding of the hipages lead-monitor decision core: the keyword
matcher, the window/quota scheduler, the lead lifecycle engine and the
cache (ledger store) initialisation, translated from the TypeScript
scraper source.  Timestamps are modelled as natural-number instants
(seconds); a calendar day is `secondsPerDay` seconds and local midnight
of the day containing `t` is `dayStart t`.  A serialized timestamp
string is modelled by `TimestampString`, which records both the instant
and which `Date` formatting method produced the string
(`toISOString` versus `toLocaleString`), since the source uses both.
-/

namespace Hipages

/-- `type LeadStatus = 'Potential Lead' | 'Already Waitlisted' | 'Transitioned to Waitlisted'`. -/
inductive LeadStatus where
  | potentialLead
  | alreadyWaitlisted
  | transitionedToWaitlisted
deriving DecidableEq

/-- The status field of a scraped article:
`'Potential Lead' | 'Already Waitlisted' | null` (the `null` case is the
surrounding `Option`). -/
inductive ScrapedStatus where
  | potential
  | alreadyWaitlisted
deriving DecidableEq

/-- The implicit TS union-subtyping coercion used at
`currentStatus: scrapedArticle.status`. -/
def ScrapedStatus.toLeadStatus : ScrapedStatus → LeadStatus
  | .potential => .potentialLead
  | .alreadyWaitlisted => .alreadyWaitlisted

/-- A serialized timestamp string together with the `Date` method that
produced it: `isoString t` models `new Date(t).toISOString()` and
`localeString t` models `new Date(t).toLocaleString()`.  Both parse back
(via `new Date(s).getTime()`) to the instant `t`, modelled by `getTime`. -/
inductive TimestampString where
  | isoString (t : Nat)
  | localeString (t : Nat)
deriving DecidableEq

/-- `new Date(s).getTime()` on a serialized timestamp string. -/
def TimestampString.getTime : TimestampString → Nat
  | .isoString t => t
  | .localeString t => t

/-- Whether the serialized form is an ISO-8601 string (produced by
`toISOString` rather than `toLocaleString`). -/
def TimestampString.isIso8601 : TimestampString → Bool
  | .isoString _ => true
  | .localeString _ => false

/-- `interface StatusHistoryItem`. -/
structure StatusHistoryItem where
  datetime_changed : TimestampString
  new_status : LeadStatus
deriving DecidableEq

/-- `interface LeadLink`. -/
structure LeadLink where
  href : Option String
  text : String
deriving DecidableEq

/-- `interface MatchedLead`. -/
structure MatchedLead where
  id : String
  matchedOn : TimestampString
  links : List LeadLink
  content : String
  currentStatus : LeadStatus
  statusHistory : List StatusHistoryItem
deriving DecidableEq

/-- `interface Cache { matchedLeads: MatchedLead[] }`. -/
structure Cache where
  matchedLeads : List MatchedLead
deriving DecidableEq

/-! ## Keyword matcher

The matching logic inlined in `page.$$eval` (the non-waitlisted branch):
build `textToSearch`, lowercase it, and if nonempty test keyword
containment with `every` (mode `all`) or `some` (mode `each`).
Text is modelled as `List Char`; `String.prototype.includes` is
`containsChars`, `String.prototype.toLowerCase` is `Char.toLower` mapped. -/

/-- `const MATCH_TYPE = KEYWORD_MATCH_TYPE === 'all' ? 'all' : 'each'`. -/
inductive MatchType where
  | each
  | all
deriving DecidableEq

/-- `needle` occurs at the start of the text (helper for `containsChars`). -/
def startsWithChars : List Char → List Char → Bool
  | [], _ => true
  | _ :: _, [] => false
  | k :: ks, c :: cs => k == c && startsWithChars ks cs

/-- `hay.includes(needle)` of JavaScript strings: `needle` occurs
contiguously somewhere in `hay` (the empty needle always occurs). -/
def containsChars (needle : List Char) : List Char → Bool
  | [] => needle.isEmpty
  | c :: rest => startsWithChars needle (c :: rest) || containsChars needle rest

/-- The keyword-matching predicate of the scraper: lowercase the text;
an empty lowercased text never matches (`if (lowerCaseTextToSearch)`);
otherwise mode `all` requires every keyword contained
(`keywords.every(k => text.includes(k))`) and mode `each` requires some
keyword contained (`keywords.some(...)`).  Keywords are supplied already
trimmed and lowercased (`KEYWORD_ARRAY`). -/
def keywordMatch (text : List Char) (keywords : List (List Char)) (matchType : MatchType) : Bool :=
  let lowerCaseTextToSearch := text.map Char.toLower
  if lowerCaseTextToSearch.isEmpty then false
  else
    match matchType with
    | .all => keywords.all (fun k => containsChars k lowerCaseTextToSearch)
    | .each => keywords.any (fun k => containsChars k lowerCaseTextToSearch)

/-! ## Lead lifecycle engine

`performScrapeCycle`'s per-article decision logic: look the article's
`id` up in `cache.matchedLeads` (`findIndex`); when absent and the
article matched, create a lead (line 702: `const nowISO = new
Date().toLocaleString()`) and `unshift` it, e-mailing only when the new
lead's `currentStatus` is `'Potential Lead'`; when present, transition a
`'Potential Lead'` observed as `'Already Waitlisted'` (using
`toISOString()` for the history entry) and e-mail the elapsed time,
otherwise do nothing.  The boolean result models `cacheUpdated`. -/

/-- One scraped article as produced by the `page.$$eval` callback:
`{ id, hasMatch, status, links, content }` (the accept DOM element is
browser plumbing and carries no decision content). -/
structure ScrapedArticle where
  id : String
  hasMatch : Bool
  status : Option ScrapedStatus
  links : List LeadLink
  content : String
deriving DecidableEq

/-- One emitted `sendEmailNotification(lead, elapsedTime?)` obligation:
the lead passed and, for transitions, the elapsed milliseconds
`new Date(nowISO).getTime() - new Date(existingLead.matchedOn).getTime()`
(formatted by `formatElapsedTime` before sending; the model keeps the
number). -/
structure Notification where
  lead : MatchedLead
  elapsedMs : Option Int
deriving DecidableEq

/-- The new lead object built on first observation of a matching
article.  Source line 702 stores `new Date().toLocaleString()` in the
variable `nowISO` and uses it for both `matchedOn` and the first
`statusHistory` entry. -/
def mkLead (now : Nat) (a : ScrapedArticle) (st : ScrapedStatus) : MatchedLead :=
  { id := a.id
    matchedOn := TimestampString.localeString now
    links := a.links
    content := a.content
    currentStatus := st.toLeadStatus
    statusHistory :=
      [{ datetime_changed := TimestampString.localeString now
         new_status := st.toLeadStatus }] }

/-- The in-place mutation of an existing lead on the one observable
transition: `currentStatus = 'Transitioned to Waitlisted'` and a pushed
history entry stamped with `new Date().toISOString()`. -/
def transitionLead (now : Nat) (l : MatchedLead) : MatchedLead :=
  { l with
    currentStatus := LeadStatus.transitionedToWaitlisted
    statusHistory := l.statusHistory ++
      [{ datetime_changed := TimestampString.isoString now
         new_status := LeadStatus.transitionedToWaitlisted }] }

/-- The existing-lead branch: the ledger entry found by `findIndex`
(the first one whose `id` matches) is mutated in place when it is a
`'Potential Lead'` observed with scraped status `'Already Waitlisted'`;
every other combination is a no-op.  Returns the updated lead list,
the notifications sent, and the `cacheUpdated` contribution. -/
def updateFirst (now : Nat) (a : ScrapedArticle) :
    List MatchedLead → List MatchedLead × List Notification × Bool
  | [] => ([], [], false)
  | l :: rest =>
    if l.id == a.id then
      if l.currentStatus == LeadStatus.potentialLead
          && a.status == some ScrapedStatus.alreadyWaitlisted then
        let l' := transitionLead now l
        (l' :: rest,
         [{ lead := l', elapsedMs := some ((now : Int) - (l.matchedOn.getTime : Int)) }],
         true)
      else (l :: rest, [], false)
    else
      let (rest', notes, upd) := updateFirst now a rest
      (l :: rest', notes, upd)

/-- Processing of one scraped article against the cache
(`performScrapeCycle` loop body).  `findIndex === -1` is modelled by
`¬ any`; a new matching lead is `unshift`ed at the front and e-mailed
only when its status is `'Potential Lead'` (the `sendEmailNotification`
in the `finally` sits inside `if (newLead.currentStatus === 'Potential
Lead')`). -/
def processArticle (now : Nat) (cache : Cache) (a : ScrapedArticle) :
    Cache × List Notification × Bool :=
  if cache.matchedLeads.any (fun l => l.id == a.id) then
    let (leads', notes, upd) := updateFirst now a cache.matchedLeads
    (⟨leads'⟩, notes, upd)
  else if a.hasMatch then
    match a.status with
    | some st =>
      let newLead := mkLead now a st
      let notes :=
        if newLead.currentStatus == LeadStatus.potentialLead then
          [{ lead := newLead, elapsedMs := none }]
        else []
      (⟨newLead :: cache.matchedLeads⟩, notes, true)
    | none => (cache, [], false)
  else (cache, [], false)

/-- One whole scrape cycle: the articles of the page processed in page
order against the successively updated cache, notifications in emission
order, `cacheUpdated` the disjunction. -/
def processCycle (now : Nat) (cache : Cache) :
    List ScrapedArticle → Cache × List Notification × Bool
  | [] => (cache, [], false)
  | a :: rest =>
    let (c₁, n₁, u₁) := processArticle now cache a
    let (c₂, n₂, u₂) := processCycle now c₁ rest
    (c₂, n₁ ++ n₂, u₁ || u₂)

/-- A sequence of scrape cycles, each with its own instant and page
contents, threading the cache. -/
def runCycles : List (Nat × List ScrapedArticle) → Cache → Cache
  | [], cache => cache
  | (now, arts) :: rest, cache => runCycles rest (processCycle now cache arts).1

/-! ## Window & quota scheduler

The decision cascade at the top of `main`'s `while (true)` loop,
evaluated against `now` and the cache. -/

/-- Seconds per calendar day; instants are seconds since the epoch and
every day has this length (no DST in the model). -/
def secondsPerDay : Nat := 86400

/-- `today.setHours(0, 0, 0, 0)`: local midnight of the day containing `t`. -/
def dayStart (t : Nat) : Nat := t / secondsPerDay * secondsPerDay

/-- `noon.setHours(12, 0, 0, 0)`: local noon of the day containing `t`. -/
def noonOf (t : Nat) : Nat := dayStart t + 12 * 3600

/-- The scheduler configuration: `START_HOUR`/`START_MINUTE`/`END_HOUR`/
`END_MINUTE`, `DAILY_LIMIT` and `MORNING_LIMIT`. -/
structure SchedulerConfig where
  startHour : Nat
  startMinute : Nat
  endHour : Nat
  endMinute : Nat
  dailyLimit : Nat
  morningLimit : Nat
deriving DecidableEq

/-- `getWindowTimes(date)`: the operating-window start and end instants
on the day containing `t`. -/
def getWindowTimes (cfg : SchedulerConfig) (t : Nat) : Nat × Nat :=
  (dayStart t + cfg.startHour * 3600 + cfg.startMinute * 60,
   dayStart t + cfg.endHour * 3600 + cfg.endMinute * 60)

/-- `getTodaysMatches(cache)`: the leads whose parsed `matchedOn` lies in
[local midnight, next local midnight) and whose `currentStatus` is
`'Potential Lead'` (only those count towards the daily limit). -/
def getTodaysMatches (cache : Cache) (now : Nat) : List MatchedLead :=
  cache.matchedLeads.filter (fun lead =>
    decide (dayStart now ≤ lead.matchedOn.getTime)
      && decide (lead.matchedOn.getTime < dayStart now + secondsPerDay)
      && (lead.currentStatus == LeadStatus.potentialLead))

/-- `new Date(todaysMatches[0].matchedOn) < noon` guarded by JavaScript
semantics: when `todaysMatches` is empty, `todaysMatches[0]` is
`undefined`, `new Date(undefined)` is an invalid date and the comparison
is false. -/
def firstMatchBeforeNoon (todaysMatches : List MatchedLead) (now : Nat) : Bool :=
  match todaysMatches.head? with
  | some l => decide (l.matchedOn.getTime < noonOf now)
  | none => false

/-- The four outcomes of one pass over the decision cascade, each idle
outcome carrying the instant slept until. -/
inductive SchedulerDecision where
  | outsideWindow (sleepUntil : Nat)
  | quotaExhausted (sleepUntil : Nat)
  | morningPause (sleepUntil : Nat)
  | active
deriving DecidableEq

/-- The scheduler cascade of `main`, in source order:
`if (now < todayWindow.start || now > todayWindow.end)` sleeps until
today's window start (when early) or tomorrow's (when late);
`if (todaysMatches.length >= DAILY_LIMIT)` sleeps until tomorrow's
window start; `if (todaysMatches.length === MORNING_LIMIT)` with
`todaysMatches[0].matchedOn` before noon and `now` before noon sleeps
until noon (an out-of-range `todaysMatches[0]` yields an invalid date
whose comparison is false); otherwise a scrape cycle runs. -/
def evalScheduler (cfg : SchedulerConfig) (now : Nat) (cache : Cache) : SchedulerDecision :=
  let windowToday := getWindowTimes cfg now
  let todaysMatches := getTodaysMatches cache now
  if now < windowToday.1 ∨ windowToday.2 < now then
    SchedulerDecision.outsideWindow
      (if now < windowToday.1 then windowToday.1
       else (getWindowTimes cfg (dayStart now + secondsPerDay)).1)
  else if cfg.dailyLimit ≤ todaysMatches.length then
    SchedulerDecision.quotaExhausted ((getWindowTimes cfg (dayStart now + secondsPerDay)).1)
  else if todaysMatches.length = cfg.morningLimit
      ∧ firstMatchBeforeNoon todaysMatches now = true ∧ now < noonOf now then
    SchedulerDecision.morningPause (noonOf now)
  else
    SchedulerDecision.active

/-! ## Ledger store initialisation

`initializeCache` / `writeCache`: the file read is modelled as either
absent (the read throws) or some content string; `JSON.parse` is a
parameter since its grammar is irrelevant to the claims.  The second
component of the result is the cache written back to disk during
initialisation, if any. -/

/-- The outcome of `fs.readFile` on the cache file. -/
inductive FileRead where
  | absent
  | content (data : String)
deriving DecidableEq

/-- `const initialCache: Cache = { matchedLeads: [] }`. -/
def emptyCache : Cache := ⟨[]⟩

/-- `initializeCache()`: read the file; an absent file, a file whose
trimmed content is empty (`data.trim() === ''` throws), or a parse
failure all fall into the `catch`, which returns the empty cache after
writing it back; a successful parse returns the parsed cache and writes
nothing.  Total: no failure escapes (`writeCache` swallows its own
errors). -/
def initializeCache (parse : String → Option Cache) (file : FileRead) :
    Cache × Option Cache :=
  match file with
  | .absent => (emptyCache, some emptyCache)
  | .content data =>
    if data.trim = "" then (emptyCache, some emptyCache)
    else
      match parse data with
      | none => (emptyCache, some emptyCache)
      | some cache => (cache, none)

/-! ## Helper lemmas -/

theorem startsWithChars_iff (needle hay : List Char) :
    startsWithChars needle hay = true ↔ ∃ t, hay = needle ++ t := by
  induction needle generalizing hay with
  | nil =>
    simp [startsWithChars]
  | cons k ks ih =>
    cases hay with
    | nil => simp [startsWithChars]
    | cons c cs =>
      simp only [startsWithChars, Bool.and_eq_true, beq_iff_eq, ih, List.cons_append,
        List.cons.injEq]
      constructor
      · rintro ⟨rfl, t, rfl⟩
        exact ⟨t, rfl, rfl⟩
      · rintro ⟨t, rfl, rfl⟩
        exact ⟨rfl, t, rfl⟩

theorem containsChars_iff (needle hay : List Char) :
    containsChars needle hay = true ↔ ∃ s t, hay = s ++ needle ++ t := by
  induction hay with
  | nil =>
    simp only [containsChars, List.isEmpty_iff]
    constructor
    · rintro rfl
      exact ⟨[], [], rfl⟩
    · rintro ⟨s, t, h⟩
      rcases List.append_eq_nil.mp (List.append_eq_nil.mp h.symm).1 with ⟨-, h2⟩
      exact h2
  | cons c cs ih =>
    simp only [containsChars, Bool.or_eq_true, startsWithChars_iff, ih]
    constructor
    · rintro (⟨t, h⟩ | ⟨s, t, h⟩)
      · exact ⟨[], t, by simpa using h⟩
      · exact ⟨c :: s, t, by simp [h]⟩
    · rintro ⟨s, t, h⟩
      cases s with
      | nil =>
        exact Or.inl ⟨t, by simpa using h⟩
      | cons x xs =>
        simp only [List.cons_append, List.cons.injEq] at h
        exact Or.inr ⟨xs, t, h.2⟩

/-! ## C4: keyword matcher -/

/-- C4 (counterexample): the claim asserts that an empty keyword set
yields no match in both modes, but in mode `all` the matcher is
`keywords.every(...)`, which is vacuously true on an empty array: with
nonempty text `"a"` and no keywords the matcher returns `true`. -/
theorem keywordMatch_empty_keywords_all_cex :
    keywordMatch ['a'] ([] : List (List Char)) MatchType.all = true := by decide

/-- C4 (amended): the matcher lowercases the text and tests substring
containment; mode `each` is true iff at least one keyword is contained
and mode `all` is true iff the text is nonempty and every keyword is
contained; empty text never matches in either mode, and an empty
keyword set never matches in mode `each` but vacuously matches any
nonempty text in mode `all`. -/
theorem keywordMatch_characterization (text : List Char) (keywords : List (List Char)) :
    (keywordMatch text keywords MatchType.each = true ↔
      text ≠ [] ∧ ∃ k ∈ keywords, ∃ s t, text.map Char.toLower = s ++ k ++ t)
    ∧ (keywordMatch text keywords MatchType.all = true ↔
      text ≠ [] ∧ ∀ k ∈ keywords, ∃ s t, text.map Char.toLower = s ++ k ++ t)
    ∧ keywordMatch [] keywords MatchType.each = false
    ∧ keywordMatch [] keywords MatchType.all = false := by
  refine ⟨?_, ?_, by simp [keywordMatch], by simp [keywordMatch]⟩
  · cases text with
    | nil => simp [keywordMatch]
    | cons c cs =>
      simp [keywordMatch, List.any_eq_true, containsChars_iff]
  · cases text with
    | nil => simp [keywordMatch]
    | cons c cs =>
      simp [keywordMatch, List.all_eq_true, containsChars_iff]

/-! ## C7: window boundary -/

/-- C7 (counterexample): the claim asserts that an instant exactly equal
to `windowEnd` is outside the window (half-open `[start, end)`), but the
source tests `now > todayWindow.end`, so at exactly 18:00:00 with window
08:00–18:00 (and an empty ledger) the scheduler proceeds to a scrape
cycle rather than reporting OutsideWindow. -/
theorem windowEnd_instant_not_outside_cex :
    evalScheduler ⟨8, 0, 18, 0, 6, 3⟩ 64800 emptyCache = SchedulerDecision.active := by decide

/-- C7 (amended): the scheduler reports OutsideWindow exactly when
`now < windowStart` or `now > windowEnd`; the window is effectively the
closed interval `[start, end]`: `now = windowStart` is not
OutsideWindow, `now` strictly past `windowEnd` (e.g. 18:00:01) is
OutsideWindow, and `now = windowEnd` exactly is still inside the
window. -/
theorem outsideWindow_iff (cfg : SchedulerConfig) (now : Nat) (cache : Cache) :
    (∃ s, evalScheduler cfg now cache = SchedulerDecision.outsideWindow s) ↔
      now < (getWindowTimes cfg now).1 ∨ (getWindowTimes cfg now).2 < now := by
  simp only [evalScheduler]
  split
  · rename_i hout
    exact iff_of_true ⟨_, rfl⟩ hout
  · rename_i hout
    refine iff_of_false ?_ hout
    rintro ⟨s, hs⟩
    split at hs
    · exact SchedulerDecision.noConfusion hs
    · split at hs
      · exact SchedulerDecision.noConfusion hs
      · exact SchedulerDecision.noConfusion hs

/-! ## C5: quota exhaustion -/

/-- C5: inside the operating window, once the number of ledger leads
with `currentStatus = 'Potential Lead'` matched within
[local midnight, next local midnight) reaches `dailyLimit`, the
scheduler reports QuotaExhausted and sleeps until tomorrow's window
start, regardless of the time of day; with `dailyLimit = 0` every
in-window evaluation is QuotaExhausted (the hypothesis `0 ≤ length`
always holds). -/
theorem quotaExhausted_of_limit (cfg : SchedulerConfig) (now : Nat) (cache : Cache)
    (h1 : (getWindowTimes cfg now).1 ≤ now) (h2 : now ≤ (getWindowTimes cfg now).2)
    (h3 : cfg.dailyLimit ≤ (getTodaysMatches cache now).length) :
    evalScheduler cfg now cache =
      SchedulerDecision.quotaExhausted ((getWindowTimes cfg (dayStart now + secondsPerDay)).1) := by
  have hin : ¬(now < (getWindowTimes cfg now).1 ∨ (getWindowTimes cfg now).2 < now) := by
    omega
  simp only [evalScheduler]
  rw [if_neg hin, if_pos h3]

/-- Witness for C5, at 09:00 with `dailyLimit = 0` and an empty ledger:
zero of zero potential leads used, still QuotaExhausted. -/
theorem quotaExhausted_of_limit_witness :
    ((getWindowTimes ⟨8, 0, 18, 0, 0, 3⟩ 32400).1 ≤ 32400
      ∧ 32400 ≤ (getWindowTimes ⟨8, 0, 18, 0, 0, 3⟩ 32400).2
      ∧ (⟨8, 0, 18, 0, 0, 3⟩ : SchedulerConfig).dailyLimit
          ≤ (getTodaysMatches emptyCache 32400).length)
    ∧ evalScheduler ⟨8, 0, 18, 0, 0, 3⟩ 32400 emptyCache =
        SchedulerDecision.quotaExhausted
          ((getWindowTimes ⟨8, 0, 18, 0, 0, 3⟩ (dayStart 32400 + secondsPerDay)).1) :=
  ⟨⟨by decide, by decide, by decide⟩,
   quotaExhausted_of_limit ⟨8, 0, 18, 0, 0, 3⟩ 32400 emptyCache
     (by decide) (by decide) (by decide)⟩

/-! ## C3: morning pause -/

/-- Fixture for the morning-pause witness: one potential lead matched at
08:30 on day zero. -/
def morningLead : MatchedLead :=
  { id := "m"
    matchedOn := TimestampString.localeString 30600
    links := []
    content := "asbestos removal"
    currentStatus := LeadStatus.potentialLead
    statusHistory := [{ datetime_changed := TimestampString.localeString 30600
                        new_status := LeadStatus.potentialLead }] }

/-- C3: when `now` is inside the window, today's potential-lead count is
strictly below `dailyLimit` and exactly `morningLimit`, the earliest of
today's matches occurred before local noon (formalised as: some match
occurred before noon, which for a nonempty set is equivalent to its
minimum lying before noon), and `now` is before noon, the scheduler
enters MorningPause sleeping until noon; conversely the morning pause
fires only when all those conditions hold (so if any fails — in
particular when `now` is at or after noon — it does not fire, and its
sleep target is always today's noon).  The source compares
`todaysMatches[0]` (the newest of today's matches, since the ledger is
newest-first) rather than the earliest, so the positive direction
assumes the ledger is sane: no `matchedOn` lies in the future
(`hmono`), which every lead the program itself creates satisfies. -/
theorem morningPause_characterization (cfg : SchedulerConfig) (cache : Cache) :
    (∀ now : Nat, (∀ l ∈ getTodaysMatches cache now, l.matchedOn.getTime ≤ now) →
      (getWindowTimes cfg now).1 ≤ now → now ≤ (getWindowTimes cfg now).2 →
      (getTodaysMatches cache now).length < cfg.dailyLimit →
      (getTodaysMatches cache now).length = cfg.morningLimit →
      (∃ l ∈ getTodaysMatches cache now, l.matchedOn.getTime < noonOf now) →
      now < noonOf now →
      evalScheduler cfg now cache = SchedulerDecision.morningPause (noonOf now))
    ∧ (∀ now s, evalScheduler cfg now cache = SchedulerDecision.morningPause s →
      s = noonOf now
      ∧ (getWindowTimes cfg now).1 ≤ now ∧ now ≤ (getWindowTimes cfg now).2
      ∧ (getTodaysMatches cache now).length < cfg.dailyLimit
      ∧ (getTodaysMatches cache now).length = cfg.morningLimit
      ∧ (∃ l ∈ getTodaysMatches cache now, l.matchedOn.getTime < noonOf now)
      ∧ now < noonOf now) := by
  constructor
  · intro now hmono h1 h2 h3 h4 hex h6
    have hin : ¬(now < (getWindowTimes cfg now).1 ∨ (getWindowTimes cfg now).2 < now) := by
      omega
    have hq : ¬(cfg.dailyLimit ≤ (getTodaysMatches cache now).length) := by omega
    have hhead : firstMatchBeforeNoon (getTodaysMatches cache now) now = true := by
      rcases hex with ⟨l, hl, -⟩
      cases hL : getTodaysMatches cache now with
      | nil => rw [hL] at hl; cases hl
      | cons x xs =>
        have hx : x ∈ getTodaysMatches cache now := by
          rw [hL]; exact List.mem_cons_self x xs
        have := hmono x hx
        simp only [firstMatchBeforeNoon, hL, List.head?_cons, decide_eq_true_eq]
        omega
    simp only [evalScheduler]
    rw [if_neg hin, if_neg hq, if_pos ⟨h4, hhead, h6⟩]
  · intro now s h
    simp only [evalScheduler] at h
    split at h
    · exact SchedulerDecision.noConfusion h
    · rename_i hin
      split at h
      · exact SchedulerDecision.noConfusion h
      · rename_i hq
        split at h
        · rename_i hc
          obtain ⟨hlen, hfst, hnoon⟩ := hc
          have hs : s = noonOf now := (SchedulerDecision.morningPause.injEq _ _).mp h.symm
          have hex : ∃ l ∈ getTodaysMatches cache now, l.matchedOn.getTime < noonOf now := by
            cases hL : getTodaysMatches cache now with
            | nil => rw [hL] at hfst; simp [firstMatchBeforeNoon] at hfst
            | cons x xs =>
              rw [hL] at hfst
              simp only [firstMatchBeforeNoon, List.head?_cons, decide_eq_true_eq] at hfst
              exact ⟨x, List.mem_cons_self x xs, hfst⟩
          exact ⟨hs, by omega, by omega, by omega, hlen, hex, hnoon⟩
        · exact SchedulerDecision.noConfusion h

/-- Witness for C3: with window 08:00–18:00, `dailyLimit = 2`,
`morningLimit = 1` and one potential lead matched at 08:30, the
evaluation at 09:00 pauses until noon, and conversely that observed
pause certifies all the claim's conditions at 09:00. -/
theorem morningPause_characterization_witness :
    ((∀ l ∈ getTodaysMatches ⟨[morningLead]⟩ 32400, l.matchedOn.getTime ≤ 32400)
      ∧ (getWindowTimes ⟨8, 0, 18, 0, 2, 1⟩ 32400).1 ≤ 32400
      ∧ 32400 ≤ (getWindowTimes ⟨8, 0, 18, 0, 2, 1⟩ 32400).2
      ∧ (getTodaysMatches ⟨[morningLead]⟩ 32400).length
          < (⟨8, 0, 18, 0, 2, 1⟩ : SchedulerConfig).dailyLimit
      ∧ (getTodaysMatches ⟨[morningLead]⟩ 32400).length
          = (⟨8, 0, 18, 0, 2, 1⟩ : SchedulerConfig).morningLimit
      ∧ (∃ l ∈ getTodaysMatches ⟨[morningLead]⟩ 32400, l.matchedOn.getTime < noonOf 32400)
      ∧ 32400 < noonOf 32400
      ∧ evalScheduler ⟨8, 0, 18, 0, 2, 1⟩ 32400 ⟨[morningLead]⟩ =
          SchedulerDecision.morningPause (noonOf 32400))
    ∧ (evalScheduler ⟨8, 0, 18, 0, 2, 1⟩ 32400 ⟨[morningLead]⟩ =
          SchedulerDecision.morningPause 43200
      ∧ (43200 : Nat) = noonOf 32400
          ∧ (getWindowTimes ⟨8, 0, 18, 0, 2, 1⟩ 32400).1 ≤ 32400
          ∧ 32400 ≤ (getWindowTimes ⟨8, 0, 18, 0, 2, 1⟩ 32400).2
          ∧ (getTodaysMatches ⟨[morningLead]⟩ 32400).length
              < (⟨8, 0, 18, 0, 2, 1⟩ : SchedulerConfig).dailyLimit
          ∧ (getTodaysMatches ⟨[morningLead]⟩ 32400).length
              = (⟨8, 0, 18, 0, 2, 1⟩ : SchedulerConfig).morningLimit
          ∧ (∃ l ∈ getTodaysMatches ⟨[morningLead]⟩ 32400,
              l.matchedOn.getTime < noonOf 32400)
          ∧ 32400 < noonOf 32400) :=
  ⟨⟨by decide, by decide, by decide, by decide, by decide, by decide, by decide,
    (morningPause_characterization ⟨8, 0, 18, 0, 2, 1⟩ ⟨[morningLead]⟩).1 32400
      (by decide) (by decide) (by decide) (by decide) (by decide) (by decide) (by decide)⟩,
   ⟨by decide,
    (morningPause_characterization ⟨8, 0, 18, 0, 2, 1⟩ ⟨[morningLead]⟩).2 32400
      43200 (by decide)⟩⟩

/-! ## C8: cache resilience -/

/-- C8: loading the persisted store when the backing file is absent,
whose trimmed content is empty, or whose content fails to parse never
fails startup (the embedding is a total function — every such read
reaches the `catch`): it yields the empty ledger and immediately writes
that empty document back. -/
theorem initializeCache_resilient (parse : String → Option Cache) (file : FileRead)
    (h : file = FileRead.absent
      ∨ (∃ d, file = FileRead.content d ∧ d.trim = "")
      ∨ (∃ d, file = FileRead.content d ∧ parse d = none)) :
    initializeCache parse file = (emptyCache, some emptyCache) := by
  rcases h with rfl | ⟨d, rfl, hd⟩ | ⟨d, rfl, hd⟩
  · rfl
  · simp [initializeCache, hd]
  · by_cases ht : d.trim = ""
    · simp [initializeCache, ht]
    · simp [initializeCache, ht, hd]

/-- Witness for C8: an absent backing file (with a parser that accepts
nothing) yields the empty ledger and a rewrite of the empty document. -/
theorem initializeCache_resilient_witness :
    (FileRead.absent = FileRead.absent
      ∨ (∃ d, FileRead.absent = FileRead.content d ∧ d.trim = "")
      ∨ (∃ d, FileRead.absent = FileRead.content d ∧ (fun _ : String => (none : Option Cache)) d = none))
    ∧ initializeCache (fun _ => none) FileRead.absent = (emptyCache, some emptyCache) :=
  ⟨Or.inl rfl, initializeCache_resilient (fun _ => none) FileRead.absent (Or.inl rfl)⟩

/-! ## Lifecycle helper lemmas -/

/-- Behaviour of the existing-lead branch when `findIndex` locates a
lead: the located lead is the first whose id matches, it alone is
replaced (transitioned with one e-mail) when it is a potential lead
observed as waitlisted, and everything is left untouched with no e-mail
otherwise. -/
theorem updateFirst_found (now : Nat) (a : ScrapedArticle) (leads : List MatchedLead)
    (l : MatchedLead) (hfind : leads.find? (fun x => x.id == a.id) = some l) :
    (l.currentStatus = LeadStatus.potentialLead
        ∧ a.status = some ScrapedStatus.alreadyWaitlisted →
      ∃ pre post, leads = pre ++ l :: post
        ∧ (∀ x ∈ pre, (x.id == a.id) = false)
        ∧ updateFirst now a leads =
            (pre ++ transitionLead now l :: post,
             [{ lead := transitionLead now l,
                elapsedMs := some ((now : Int) - (l.matchedOn.getTime : Int)) }],
             true))
    ∧ (¬(l.currentStatus = LeadStatus.potentialLead
        ∧ a.status = some ScrapedStatus.alreadyWaitlisted) →
      updateFirst now a leads = (leads, [], false)) := by
  induction leads with
  | nil => simp [List.find?] at hfind
  | cons x rest ih =>
    rw [List.find?_cons] at hfind
    cases hpx : (x.id == a.id) with
    | true =>
      rw [hpx] at hfind
      simp only [if_true, Option.some.injEq] at hfind
      subst hfind
      constructor
      · rintro ⟨hstat, hscr⟩
        refine ⟨[], rest, rfl, by simp, ?_⟩
        simp [updateFirst, hpx, hstat, hscr]
      · intro hneg
        cases hc : (x.currentStatus == LeadStatus.potentialLead
            && a.status == some ScrapedStatus.alreadyWaitlisted) with
        | true =>
          rw [Bool.and_eq_true, beq_iff_eq, beq_iff_eq] at hc
          exact absurd hc hneg
        | false =>
          simp [updateFirst, hpx, hc]
    | false =>
      rw [hpx] at hfind
      simp only [Bool.false_eq_true, if_false] at hfind
      obtain ⟨ih1, ih2⟩ := ih hfind
      constructor
      · rintro ⟨hstat, hscr⟩
        obtain ⟨pre, post, heq, hpre, hupd⟩ := ih1 ⟨hstat, hscr⟩
        refine ⟨x :: pre, post, by rw [heq, List.cons_append], ?_, ?_⟩
        · intro y hy
          rcases List.mem_cons.mp hy with rfl | hy'
          · exact hpx
          · exact hpre y hy'
        · simp [updateFirst, hpx, hupd]
      · intro hneg
        simp [updateFirst, hpx, ih2 hneg]

/-- Lifting of `updateFirst_found` through `processArticle`: the
`findIndex` hit selects the existing-lead branch. -/
theorem processArticle_found (now : Nat) (cache : Cache) (a : ScrapedArticle)
    (l : MatchedLead) (hfind : cache.matchedLeads.find? (fun x => x.id == a.id) = some l) :
    (l.currentStatus = LeadStatus.potentialLead
        ∧ a.status = some ScrapedStatus.alreadyWaitlisted →
      ∃ pre post, cache.matchedLeads = pre ++ l :: post
        ∧ (∀ x ∈ pre, (x.id == a.id) = false)
        ∧ processArticle now cache a =
            (⟨pre ++ transitionLead now l :: post⟩,
             [{ lead := transitionLead now l,
                elapsedMs := some ((now : Int) - (l.matchedOn.getTime : Int)) }],
             true))
    ∧ (¬(l.currentStatus = LeadStatus.potentialLead
        ∧ a.status = some ScrapedStatus.alreadyWaitlisted) →
      processArticle now cache a = (cache, [], false)) := by
  have hany : cache.matchedLeads.any (fun x => x.id == a.id) = true := by
    have hmem := List.mem_of_find?_eq_some hfind
    have hp := List.find?_some hfind
    rw [List.any_eq_true]
    exact ⟨l, hmem, hp⟩
  obtain ⟨h1, h2⟩ := updateFirst_found now a cache.matchedLeads l hfind
  constructor
  · intro hcond
    obtain ⟨pre, post, heq, hpre, hupd⟩ := h1 hcond
    exact ⟨pre, post, heq, hpre, by simp [processArticle, hany, hupd]⟩
  · intro hneg
    simp [processArticle, hany, h2 hneg]

/-! ## C1: the one observable transition -/

/-- C1: when a raw record's id is already in the ledger, the found lead
is a `'Potential Lead'` and the scraped status is the waitlist marker,
processing the record sets the lead's status to
`'Transitioned to Waitlisted'`, appends exactly one history entry
stamped with the current instant, and emits exactly one transition
notification carrying the elapsed time `now - matchedOn`; every other
combination of existing and scraped status leaves the ledger unchanged
and emits nothing. -/
theorem transition_step (now : Nat) (cache : Cache) (a : ScrapedArticle) (l : MatchedLead)
    (hfind : cache.matchedLeads.find? (fun x => x.id == a.id) = some l) :
    (l.currentStatus = LeadStatus.potentialLead
        ∧ a.status = some ScrapedStatus.alreadyWaitlisted →
      (transitionLead now l).currentStatus = LeadStatus.transitionedToWaitlisted
      ∧ (transitionLead now l).statusHistory = l.statusHistory ++
          [{ datetime_changed := TimestampString.isoString now
             new_status := LeadStatus.transitionedToWaitlisted }]
      ∧ (processArticle now cache a).2.1 =
          [{ lead := transitionLead now l
             elapsedMs := some ((now : Int) - (l.matchedOn.getTime : Int)) }]
      ∧ ∃ pre post, cache.matchedLeads = pre ++ l :: post
          ∧ (∀ x ∈ pre, (x.id == a.id) = false)
          ∧ (processArticle now cache a).1.matchedLeads =
              pre ++ transitionLead now l :: post)
    ∧ (¬(l.currentStatus = LeadStatus.potentialLead
        ∧ a.status = some ScrapedStatus.alreadyWaitlisted) →
      processArticle now cache a = (cache, [], false)) := by
  obtain ⟨h1, h2⟩ := processArticle_found now cache a l hfind
  refine ⟨?_, h2⟩
  intro hcond
  obtain ⟨pre, post, heq, hpre, hres⟩ := h1 hcond
  exact ⟨rfl, rfl, by rw [hres], pre, post, heq, hpre, by rw [hres]⟩

/-- Fixture for the C1 witness: a potential lead matched at instant 60. -/
def potentialLeadFixture : MatchedLead :=
  { id := "L1"
    matchedOn := TimestampString.localeString 60
    links := []
    content := "asbestos removal"
    currentStatus := LeadStatus.potentialLead
    statusHistory := [{ datetime_changed := TimestampString.localeString 60
                        new_status := LeadStatus.potentialLead }] }

/-- Witness for C1: the fixture lead re-observed with the waitlist
marker at instant 100 transitions, gains one history entry at 100, and
triggers one notification with elapsed time 40. -/
theorem transition_step_witness :
    ((⟨[potentialLeadFixture]⟩ : Cache).matchedLeads.find?
        (fun x => x.id == (⟨"L1", true, some ScrapedStatus.alreadyWaitlisted, [], "t"⟩ :
          ScrapedArticle).id) = some potentialLeadFixture)
    ∧ (potentialLeadFixture.currentStatus = LeadStatus.potentialLead
      ∧ (⟨"L1", true, some ScrapedStatus.alreadyWaitlisted, [], "t"⟩ :
          ScrapedArticle).status = some ScrapedStatus.alreadyWaitlisted
      ∧ (processArticle 100 ⟨[potentialLeadFixture]⟩
            ⟨"L1", true, some ScrapedStatus.alreadyWaitlisted, [], "t"⟩).2.1 =
          [{ lead := transitionLead 100 potentialLeadFixture
             elapsedMs := some ((100 : Int) - ((potentialLeadFixture.matchedOn.getTime : Nat) : Int)) }]) :=
  ⟨by decide,
   by
    have h := (transition_step 100 ⟨[potentialLeadFixture]⟩
      ⟨"L1", true, some ScrapedStatus.alreadyWaitlisted, [], "t"⟩ potentialLeadFixture
      (by decide)).1 ⟨by decide, rfl⟩
    exact ⟨by decide, rfl, h.2.2.1⟩⟩

/-! ## C6: new already-waitlisted leads -/

/-- C6 (counterexample): a raw record with an unknown id and the
waitlist marker does create an `'Already Waitlisted'` lead at the front
of the ledger, but the notification list is empty: the
`sendEmailNotification(newLead)` call sits inside
`if (newLead.currentStatus === 'Potential Lead')`, so no new-lead
notification is emitted for it, contradicting the claim. -/
theorem new_waitlisted_no_notification_cex :
    (mkLead 7 ⟨"w", true, some ScrapedStatus.alreadyWaitlisted, [], "t"⟩
        ScrapedStatus.alreadyWaitlisted).currentStatus = LeadStatus.alreadyWaitlisted
    ∧ processArticle 7 emptyCache ⟨"w", true, some ScrapedStatus.alreadyWaitlisted, [], "t"⟩ =
        (⟨[mkLead 7 ⟨"w", true, some ScrapedStatus.alreadyWaitlisted, [], "t"⟩
            ScrapedStatus.alreadyWaitlisted]⟩,
         [], true) := by decide

/-- C6 (amended): for every raw record whose id is not in the ledger and
whose scraped status is the waitlist marker, processing creates a new
lead with initial status `'Already Waitlisted'` and inserts it at the
front of the ledger, but — unlike a new `'Potential Lead'` creation —
emits no notification obligation for it. -/
theorem new_waitlisted_created_silently (now : Nat) (cache : Cache) (a : ScrapedArticle)
    (hnot : cache.matchedLeads.any (fun l => l.id == a.id) = false)
    (hm : a.hasMatch = true)
    (hs : a.status = some ScrapedStatus.alreadyWaitlisted) :
    (mkLead now a ScrapedStatus.alreadyWaitlisted).currentStatus = LeadStatus.alreadyWaitlisted
    ∧ processArticle now cache a =
        (⟨mkLead now a ScrapedStatus.alreadyWaitlisted :: cache.matchedLeads⟩, [], true) := by
  refine ⟨rfl, ?_⟩
  simp [processArticle, hnot, hm, hs, mkLead, ScrapedStatus.toLeadStatus]

/-- Witness for the amended C6 at a concrete record and empty ledger. -/
theorem new_waitlisted_created_silently_witness :
    ((emptyCache.matchedLeads.any
        (fun l => l.id == (⟨"w6", true, some ScrapedStatus.alreadyWaitlisted, [], "c"⟩ :
          ScrapedArticle).id) = false)
      ∧ (⟨"w6", true, some ScrapedStatus.alreadyWaitlisted, [], "c"⟩ :
          ScrapedArticle).hasMatch = true
      ∧ (⟨"w6", true, some ScrapedStatus.alreadyWaitlisted, [], "c"⟩ :
          ScrapedArticle).status = some ScrapedStatus.alreadyWaitlisted)
    ∧ ((mkLead 9 ⟨"w6", true, some ScrapedStatus.alreadyWaitlisted, [], "c"⟩
          ScrapedStatus.alreadyWaitlisted).currentStatus = LeadStatus.alreadyWaitlisted
      ∧ processArticle 9 emptyCache ⟨"w6", true, some ScrapedStatus.alreadyWaitlisted, [], "c"⟩ =
          (⟨[mkLead 9 ⟨"w6", true, some ScrapedStatus.alreadyWaitlisted, [], "c"⟩
              ScrapedStatus.alreadyWaitlisted]⟩, [], true)) :=
  ⟨⟨rfl, rfl, rfl⟩,
   new_waitlisted_created_silently 9 emptyCache
     ⟨"w6", true, some ScrapedStatus.alreadyWaitlisted, [], "c"⟩ rfl rfl rfl⟩

/-! ## C2: deduplication and distinct ids -/

theorem updateFirst_map_id (now : Nat) (a : ScrapedArticle) (leads : List MatchedLead) :
    (updateFirst now a leads).1.map MatchedLead.id = leads.map MatchedLead.id := by
  induction leads with
  | nil => rfl
  | cons x rest ih =>
    rcases hu : updateFirst now a rest with ⟨rest', notes, upd⟩
    rw [hu] at ih
    simp only [updateFirst]
    split
    · split
      · simp [transitionLead]
      · simp
    · simp [hu, ih]

theorem processArticle_nodup_ids (now : Nat) (cache : Cache) (a : ScrapedArticle)
    (h : (cache.matchedLeads.map MatchedLead.id).Nodup) :
    (((processArticle now cache a).1.matchedLeads.map MatchedLead.id)).Nodup := by
  by_cases hany : cache.matchedLeads.any (fun l => l.id == a.id) = true
  · rcases hu : updateFirst now a cache.matchedLeads with ⟨leads', notes, upd⟩
    have hmap := updateFirst_map_id now a cache.matchedLeads
    rw [hu] at hmap
    simp only [processArticle, hany, if_true, hu]
    simpa [hmap] using h
  · rw [Bool.not_eq_true] at hany
    have hnotin : a.id ∉ cache.matchedLeads.map MatchedLead.id := by
      intro hmem
      rcases List.mem_map.mp hmem with ⟨x, hx, hxid⟩
      have hx' : cache.matchedLeads.any (fun l => l.id == a.id) = true :=
        List.any_eq_true.mpr ⟨x, hx, by simp [hxid]⟩
      simp [hx'] at hany
    simp only [processArticle, hany]
    cases hm : a.hasMatch with
    | false => simpa [hm] using h
    | true =>
      cases hs : a.status with
      | none => simpa [hm, hs] using h
      | some st =>
        simp only [hm, hs, Bool.false_eq_true, if_false, if_true]
        rw [List.map_cons]
        refine List.nodup_cons.mpr ⟨?_, h⟩
        simpa [mkLead] using hnotin

theorem processCycle_nodup_ids (now : Nat) (arts : List ScrapedArticle) :
    ∀ cache : Cache, (cache.matchedLeads.map MatchedLead.id).Nodup →
    (((processCycle now cache arts).1.matchedLeads.map MatchedLead.id)).Nodup := by
  induction arts with
  | nil => intro cache h; simpa [processCycle] using h
  | cons a rest ih =>
    intro cache h
    rcases h1 : processArticle now cache a with ⟨c₁, n₁, u₁⟩
    have hc₁ : ((c₁.matchedLeads.map MatchedLead.id)).Nodup := by
      have := processArticle_nodup_ids now cache a h
      rwa [h1] at this
    rcases h2 : processCycle now c₁ rest with ⟨c₂, n₂, u₂⟩
    have hc₂ := ih c₁ hc₁
    rw [h2] at hc₂
    simpa [processCycle, h1, h2] using hc₂

/-- C2: a raw record whose id is already in the ledger never creates a
lead (the id sequence of the ledger is unchanged by processing it), and
consequently the pairwise distinctness of ledger ids is preserved by
every sequence of scrape cycles. -/
theorem dedup_ids :
    (∀ (now : Nat) (cache : Cache) (a : ScrapedArticle),
      cache.matchedLeads.any (fun l => l.id == a.id) = true →
      (processArticle now cache a).1.matchedLeads.map MatchedLead.id =
        cache.matchedLeads.map MatchedLead.id)
    ∧ (∀ (cycles : List (Nat × List ScrapedArticle)) (cache : Cache),
      (cache.matchedLeads.map MatchedLead.id).Nodup →
      ((runCycles cycles cache).matchedLeads.map MatchedLead.id).Nodup) := by
  constructor
  · intro now cache a hany
    rcases hu : updateFirst now a cache.matchedLeads with ⟨leads', notes, upd⟩
    have hmap := updateFirst_map_id now a cache.matchedLeads
    rw [hu] at hmap
    simpa [processArticle, hany, hu] using hmap
  · intro cycles
    induction cycles with
    | nil => intro cache h; simpa [runCycles] using h
    | cons c rest ih =>
      intro cache h
      rcases c with ⟨now, arts⟩
      exact ih _ (processCycle_nodup_ids now arts cache h)

/-- Fixture for the C2 witness: an existing lead with id `"D"`. -/
def dedupLead : MatchedLead :=
  { id := "D"
    matchedOn := TimestampString.localeString 10
    links := []
    content := "asbestos"
    currentStatus := LeadStatus.potentialLead
    statusHistory := [{ datetime_changed := TimestampString.localeString 10
                        new_status := LeadStatus.potentialLead }] }

/-- Witness for C2: re-observing id `"D"` leaves the id sequence
unchanged, and a cycle observing `"D"` (a duplicate) and `"E"` (new)
keeps the ids pairwise distinct. -/
theorem dedup_ids_witness :
    ((⟨[dedupLead]⟩ : Cache).matchedLeads.any
        (fun l => l.id == (⟨"D", true, some ScrapedStatus.potential, [], "c"⟩ :
          ScrapedArticle).id) = true
      ∧ (processArticle 3 ⟨[dedupLead]⟩
            ⟨"D", true, some ScrapedStatus.potential, [], "c"⟩).1.matchedLeads.map MatchedLead.id =
          (⟨[dedupLead]⟩ : Cache).matchedLeads.map MatchedLead.id)
    ∧ (((⟨[dedupLead]⟩ : Cache).matchedLeads.map MatchedLead.id).Nodup
      ∧ ((runCycles
            [(3, [⟨"D", true, some ScrapedStatus.potential, [], "c"⟩,
                  ⟨"E", true, some ScrapedStatus.potential, [], "c"⟩])]
            ⟨[dedupLead]⟩).matchedLeads.map MatchedLead.id).Nodup) :=
  ⟨⟨by decide, dedup_ids.1 3 ⟨[dedupLead]⟩ ⟨"D", true, some ScrapedStatus.potential, [], "c"⟩
      (by decide)⟩,
   ⟨by decide, dedup_ids.2
      [(3, [⟨"D", true, some ScrapedStatus.potential, [], "c"⟩,
            ⟨"E", true, some ScrapedStatus.potential, [], "c"⟩])]
      ⟨[dedupLead]⟩ (by decide)⟩⟩

/-! ## C10: transitions decrement today's count -/

/-- C10: the daily counter counts only leads still
`'Potential Lead'`, so transitioning a lead matched today removes it
from today's count: the count drops by exactly one, and whenever it had
exactly reached a limit it is strictly below that limit afterwards —
the quota and morning-pause conditions are not sticky within a day. -/
theorem transition_decrements_todays_count (now : Nat) (cache : Cache) (a : ScrapedArticle)
    (l : MatchedLead)
    (hfind : cache.matchedLeads.find? (fun x => x.id == a.id) = some l)
    (hstat : l.currentStatus = LeadStatus.potentialLead)
    (hscr : a.status = some ScrapedStatus.alreadyWaitlisted)
    (hlo : dayStart now ≤ l.matchedOn.getTime)
    (hhi : l.matchedOn.getTime < dayStart now + secondsPerDay) :
    (getTodaysMatches (processArticle now cache a).1 now).length + 1
      = (getTodaysMatches cache now).length
    ∧ ∀ dailyLimit : Nat, (getTodaysMatches cache now).length = dailyLimit →
        (getTodaysMatches (processArticle now cache a).1 now).length < dailyLimit := by
  obtain ⟨pre, post, heq, -, hres⟩ :=
    (processArticle_found now cache a l hfind).1 ⟨hstat, hscr⟩
  have hpl : (decide (dayStart now ≤ l.matchedOn.getTime)
      && decide (l.matchedOn.getTime < dayStart now + secondsPerDay)
      && (l.currentStatus == LeadStatus.potentialLead)) = true := by
    simp [hlo, hhi, hstat]
  have hpl' : (decide (dayStart now ≤ (transitionLead now l).matchedOn.getTime)
      && decide ((transitionLead now l).matchedOn.getTime < dayStart now + secondsPerDay)
      && ((transitionLead now l).currentStatus == LeadStatus.potentialLead)) = false := by
    simp [transitionLead]
  have hmain : (getTodaysMatches (processArticle now cache a).1 now).length + 1
      = (getTodaysMatches cache now).length := by
    rw [hres]
    simp only [getTodaysMatches, heq, List.filter_append, List.length_append,
      List.filter_cons, hpl, hpl', if_true, Bool.false_eq_true, if_false, List.length_cons]
    omega
  exact ⟨hmain, fun d hd => by omega⟩

/-- Fixture for the C10 witness: a potential lead matched today
(instant 35000 on day zero). -/
def todayLead : MatchedLead :=
  { id := "Q"
    matchedOn := TimestampString.localeString 35000
    links := []
    content := "asbestos"
    currentStatus := LeadStatus.potentialLead
    statusHistory := [{ datetime_changed := TimestampString.localeString 35000
                        new_status := LeadStatus.potentialLead }] }

/-- Witness for C10: transitioning the single potential lead matched
today brings today's count from 1 to 0, strictly below a daily limit
of 1. -/
theorem transition_decrements_todays_count_witness :
    ((⟨[todayLead]⟩ : Cache).matchedLeads.find?
        (fun x => x.id == (⟨"Q", true, some ScrapedStatus.alreadyWaitlisted, [], "c"⟩ :
          ScrapedArticle).id) = some todayLead
      ∧ todayLead.currentStatus = LeadStatus.potentialLead
      ∧ (⟨"Q", true, some ScrapedStatus.alreadyWaitlisted, [], "c"⟩ :
          ScrapedArticle).status = some ScrapedStatus.alreadyWaitlisted
      ∧ dayStart 40000 ≤ todayLead.matchedOn.getTime
      ∧ todayLead.matchedOn.getTime < dayStart 40000 + secondsPerDay)
    ∧ ((getTodaysMatches (processArticle 40000 ⟨[todayLead]⟩
          ⟨"Q", true, some ScrapedStatus.alreadyWaitlisted, [], "c"⟩).1 40000).length + 1
        = (getTodaysMatches ⟨[todayLead]⟩ 40000).length
      ∧ ∀ dailyLimit : Nat, (getTodaysMatches ⟨[todayLead]⟩ 40000).length = dailyLimit →
          (getTodaysMatches (processArticle 40000 ⟨[todayLead]⟩
            ⟨"Q", true, some ScrapedStatus.alreadyWaitlisted, [], "c"⟩).1 40000).length
            < dailyLimit) :=
  ⟨⟨by decide, by decide, rfl, by decide, by decide⟩,
   transition_decrements_todays_count 40000 ⟨[todayLead]⟩
     ⟨"Q", true, some ScrapedStatus.alreadyWaitlisted, [], "c"⟩ todayLead
     (by decide) (by decide) rfl (by decide) (by decide)⟩

/-! ## C9: timestamp serialisation formats -/

/-- C9 (code bug evidence): a newly created lead's `matchedOn` and first
history entry are produced by `new Date().toLocaleString()` — despite
the variable being named `nowISO` (source line 702) — so they are not
ISO-8601 strings; the transition path stamps its history entry with
`toISOString()`, so a transitioned lead's history mixes the two
formats (`[false, true]` under `isIso8601`). -/
theorem new_lead_timestamp_not_iso :
    ((processArticle 1000 emptyCache
        ⟨"N", true, some ScrapedStatus.potential, [], "asbestos"⟩).1.matchedLeads.map
          (fun l => l.matchedOn) = [TimestampString.localeString 1000])
    ∧ ((processArticle 1000 emptyCache
        ⟨"N", true, some ScrapedStatus.potential, [], "asbestos"⟩).1.matchedLeads.map
          (fun l => l.matchedOn.isIso8601) = [false])
    ∧ ((processArticle 1000 emptyCache
        ⟨"N", true, some ScrapedStatus.potential, [], "asbestos"⟩).1.matchedLeads.map
          (fun l => l.statusHistory.map (fun e => e.datetime_changed.isIso8601)) = [[false]])
    ∧ ((transitionLead 2000 (mkLead 1000
          ⟨"N", true, some ScrapedStatus.potential, [], "asbestos"⟩
          ScrapedStatus.potential)).statusHistory.map
            (fun e => e.datetime_changed.isIso8601) = [false, true]) := by
  decide

end Hipages
